import Mathlib

/-!
# Verification of the Felaco SaaS backend core (shallow embedding)

This development embeds, in Lean 4, the entity helpers and controller
operations of the Felaco website-builder backend:

* `AICredits` credit-ledger helpers
  (`backend/src/entity/AICredits.ts`);
* `Payment` lifecycle helpers (`backend/src/entity/Payment.ts`);
* slug generation and the page/site/section lifecycle operations of
  `PageController`, `SiteController` and `SectionController`
  (`backend/src/controllers/*.ts`).

TypeScript `number` fields holding integral counters are embedded as `Int`
(credits) or `Nat`/`Int` (orders); money amounts (`decimal(10,2)`) as `Rat`.
Fallible controller methods, which throw typed HTTP errors, are embedded as
functions into `Except DomainError _`; a thrown error leaves the database
unchanged, which the embedding renders by returning no state on the error
branch (the TypeScript code performs no repository write before any throw).
-/

/-! ## Credit ledger (`entity/AICredits.ts`) -/

/-- The two counters of the `ai_credits` row that the credit helpers read and
write (`credits` = granted total, `usedCredits` = consumed so far).  The other
columns (reset schedule, user link, timestamps) are not touched by
`hasEnoughCredits`/`useCredits` and are omitted. -/
structure AICredits where
  credits : Int
  usedCredits : Int
deriving Repr, DecidableEq

/-- `AICredits.hasEnoughCredits(required)`:
`this.credits - this.usedCredits >= required`. -/
def hasEnoughCredits (c : AICredits) (required : Int) : Bool :=
  c.credits - c.usedCredits ≥ required

/-- `AICredits.useCredits(amount)`: returns `false` leaving the row unchanged
when `hasEnoughCredits(amount)` fails, else adds `amount` to `usedCredits` and
returns `true`.  The boolean result is paired with the updated row. -/
def useCredits (c : AICredits) (amount : Int) : Bool × AICredits :=
  if !hasEnoughCredits c amount then
    (false, c)
  else
    (true, { c with usedCredits := c.usedCredits + amount })

/-- `AICredits.addCredits(amount)`: `this.credits += amount`. -/
def addCredits (c : AICredits) (amount : Int) : AICredits :=
  { c with credits := c.credits + amount }

/-! ## Payments (`entity/Payment.ts`) -/

/-- `PaymentStatus` union type. -/
inductive PaymentStatus where
  | pending
  | completed
  | failed
  | refunded
  | cancelled
deriving Repr, DecidableEq

/-- `PaymentMetadata` is a string-keyed record built by object spreads.  It is
embedded as an association list in which a later binding shadows an earlier
one, mirroring the override behaviour of `{ ...a, ...b }`; values are kept
opaque as strings. -/
def PaymentMetadata : Type := List (String × String)

/-- Lookup in a `PaymentMetadata` record: the last binding for a key wins,
matching JavaScript spread override. -/
def metaLookup (m : PaymentMetadata) (k : String) : Option String :=
  (m.reverse.find? (fun kv => kv.1 = k)).map (fun kv => kv.2)

/-- `{ ...a, ...b }` on metadata records, in the shadowing-list encoding. -/
def metaSpread (a b : PaymentMetadata) : PaymentMetadata :=
  List.append a b

/-- The `payments` row fields used by `markAsPaid`/`processRefund`.  `amount`
is the `decimal(10,2)` column; timestamps are embedded as `Option Nat`
instants supplied by the caller (`new Date()` becomes the `now` argument). -/
structure Payment where
  amount : Rat
  status : PaymentStatus
  metadata : PaymentMetadata
  paidAt : Option Nat
  refundedAt : Option Nat
  refundAmount : Option Rat

/-- `Payment.markAsPaid(metadata = {})`: unconditionally sets
`status = 'completed'`, `paidAt = new Date()` and
`this.metadata = { ...this.metadata, ...metadata }`. -/
def markAsPaid (p : Payment) (metadata : PaymentMetadata) (now : Nat) : Payment :=
  { p with
    status := .completed
    paidAt := some now
    metadata := metaSpread p.metadata metadata }

/-- `Payment.processRefund(amount, reason?, metadata = {})`: throws unless the
payment is `completed` and `0 < amount ≤ this.amount`; otherwise records the
refund, moving to `refunded` exactly on a full refund, and merges the reason
into metadata only when a reason is supplied.  `now` stands for
`new Date()`; its ISO rendering in the metadata is kept as `toString now`. -/
def processRefund (p : Payment) (amount : Rat) (reason : Option String)
    (metadata : PaymentMetadata) (now : Nat) : Except String Payment :=
  if p.status ≠ .completed then
    .error "Only completed payments can be refunded"
  else if amount ≤ 0 ∨ amount > p.amount then
    .error "Invalid refund amount"
  else
    .ok { p with
      status := if amount = p.amount then .refunded else .completed
      refundedAt := some now
      refundAmount := some amount
      metadata :=
        match reason with
        | some r =>
            metaSpread (metaSpread p.metadata metadata)
              [("refundReason", r), ("refundedAt", toString now)]
        | none => p.metadata }

/-! ## Slug generation (`PageController.generateSlug` / `SiteController.generateSlug`)

Both controllers carry the identical private method

```ts
private generateSlug(text: string): string {
  return text.toString().toLowerCase()
    .replace(/\s+/g, '-')        // collapse whitespace runs to single hyphens
    .replace(/[^\w\-]+/g, '')    // strip characters outside \w and '-'
    .replace(/\-\-+/g, '-')      // collapse repeated hyphens
    .replace(/^-+/, '')          // trim leading hyphens
    .replace(trailing hyphen run, '');   // trim trailing hyphens
}
```

The embedding works on `List Char`.  JavaScript's `\w` is `[A-Za-z0-9_]` and
`\s` is the ECMAScript WhiteSpace/LineTerminator set; `toLowerCase` is
embedded on the ASCII range (non-ASCII letters are untouched, which is
irrelevant to every claim because such characters are stripped by the
`[^\w\-]+` pass either way). -/

/-- ECMAScript `\s` (WhiteSpace ∪ LineTerminator) code points. -/
def isJsWhitespace (c : Char) : Bool :=
  (9 ≤ c.toNat ∧ c.toNat ≤ 13) ∨ c.toNat = 32 ∨ c.toNat = 160 ∨
  c.toNat = 0x1680 ∨ (0x2000 ≤ c.toNat ∧ c.toNat ≤ 0x200a) ∨
  c.toNat = 0x2028 ∨ c.toNat = 0x2029 ∨ c.toNat = 0x202f ∨
  c.toNat = 0x205f ∨ c.toNat = 0x3000 ∨ c.toNat = 0xfeff

/-- ECMAScript `\w`, i.e. `[A-Za-z0-9_]`. -/
def isJsWordChar (c : Char) : Bool :=
  (65 ≤ c.toNat ∧ c.toNat ≤ 90) ∨ (97 ≤ c.toNat ∧ c.toNat ≤ 122) ∨
  (48 ≤ c.toNat ∧ c.toNat ≤ 57) ∨ c.toNat = 95

/-- `toLowerCase` restricted to the ASCII letters (`'A'..'Z'` map to
`'a'..'z'`, everything else is unchanged). -/
def asciiToLower (c : Char) : Char :=
  if 65 ≤ c.toNat ∧ c.toNat ≤ 90 then Char.ofNat (c.toNat + 32) else c

/-- `.replace(/\s+/g, '-')`: each maximal whitespace run becomes one hyphen.
The boolean argument records whether the previous character was whitespace. -/
def collapseWsAux : Bool → List Char → List Char
  | _, [] => []
  | prevWs, c :: rest =>
    if isJsWhitespace c then
      (if prevWs then [] else ['-']) ++ collapseWsAux true rest
    else
      c :: collapseWsAux false rest

/-- `.replace(/[^\w\-]+/g, '')`: drop every character outside `\w` and
`'-'`. -/
def stripNonWord (l : List Char) : List Char :=
  l.filter (fun c => isJsWordChar c || c = '-')

/-- `.replace(/\-\-+/g, '-')`: each maximal hyphen run becomes one hyphen (a
run of length one is already a single hyphen, so collapsing every run is the
same transformation as collapsing only the runs of length ≥ 2). -/
def collapseHyphensAux : Bool → List Char → List Char
  | _, [] => []
  | prevHy, c :: rest =>
    if c = '-' then
      (if prevHy then [] else ['-']) ++ collapseHyphensAux true rest
    else
      c :: collapseHyphensAux false rest

/-- `.replace(/^-+/, '')`. -/
def trimLeadHyphens (l : List Char) : List Char :=
  l.dropWhile (fun c => c = '-')

/-- `.replace(<trailing hyphen run>, '')`. -/
def trimTrailHyphens (l : List Char) : List Char :=
  (l.reverse.dropWhile (fun c => c = '-')).reverse

/-- The shared `generateSlug` of `PageController` and `SiteController`. -/
def generateSlug (text : String) : String :=
  String.mk (trimTrailHyphens (trimLeadHyphens (collapseHyphensAux false
    (stripNonWord (collapseWsAux false (text.data.map asciiToLower))))))

/-- The character class `[a-z0-9-]` named by the specification. -/
def isClaimedSlugChar (c : Char) : Bool :=
  (97 ≤ c.toNat ∧ c.toNat ≤ 122) ∨ (48 ≤ c.toNat ∧ c.toNat ≤ 57) ∨ c = '-'

/-- The character class `[a-z0-9_-]` actually produced by the code (`\w`
keeps the underscore). -/
def isSlugOutputChar (c : Char) : Bool :=
  (97 ≤ c.toNat ∧ c.toNat ≤ 122) ∨ (48 ≤ c.toNat ∧ c.toNat ≤ 57) ∨
  c.toNat = 95 ∨ c = '-'

/-! ## Random slug suffixes

On a slug collision the controllers append
`Math.random().toString(36).substring(2, k)` with `k = 6` for pages and
`k = 8` for sites.  `Number.prototype.toString(36)` renders a value of
`[0,1)` as `"0"` when the fractional base-36 expansion is empty and as
`"0." ++ digits` otherwise, digits drawn from `[0-9a-z]` with no trailing
zeros.  The embedding takes that digit list as the stand-in for the
randomness. -/

/-- `Math.random().toString(36)` as a char list, given the fractional
base-36 digit expansion of the drawn value. -/
def randToString36 (digits : List Char) : List Char :=
  if digits.isEmpty then ['0'] else '0' :: '.' :: digits

/-- `String.prototype.substring(a, b)` (with `a ≤ b` in-range or clamped). -/
def jsSubstring (l : List Char) (a b : Nat) : List Char :=
  (l.take b).drop a

/-- `Math.random().toString(36).substring(a, b)`. -/
def randSuffix (digits : List Char) (a b : Nat) : String :=
  String.mk (jsSubstring (randToString36 digits) a b)

/-- The base-36 digit alphabet `[0-9a-z]` used by `toString(36)`. -/
def isBase36Digit (c : Char) : Bool :=
  (48 ≤ c.toNat ∧ c.toNat ≤ 57) ∨ (97 ≤ c.toNat ∧ c.toNat ≤ 122)

/-! ## Sites, pages and sections: data model

The controllers are embedded against a database value holding the rows
visible to the one authenticated user making the requests: ownership
checks of the form `findOne({ id, owner: user })` become lookups by id in
`Db.sites` (a row of another owner would simply not be in the list, which
the controllers cannot distinguish from absence — they throw the same
not-found/forbidden error either way, before any write).  Soft deletion
(`softRemove`) is a `deleted` flag: TypeORM's `find`/`findOne`/`count`
exclude soft-deleted rows, while criteria-based `update` does not, and the
embedding mirrors exactly that.  Row ids are modelled by a `nextId` counter
standing for the uuid generator.  Opaque blob columns (`seo`, `settings`,
`customCode`, colors) are not read by any modelled operation and are
omitted from the rows. -/

/-- `sites` row (fields used by the modelled operations). -/
structure Site where
  id : Nat
  name : String
  slug : String
  description : String
  template : String
  status : String
  deleted : Bool
deriving Repr, DecidableEq

/-- `pages` row. -/
structure Page where
  id : Nat
  siteId : Nat
  title : String
  slug : String
  description : String
  content : String
  status : String
  pageType : String
  isHomepage : Bool
  order : Int
  deleted : Bool
deriving Repr, DecidableEq

/-- `page_sections` row (fields used by the modelled operations). -/
structure PageSection where
  id : Nat
  pageId : Nat
  order : Int
  deleted : Bool
deriving Repr, DecidableEq

/-- The rows visible to the requesting user, plus the id generator. -/
structure Db where
  sites : List Site
  pages : List Page
  sections : List PageSection
  nextId : Nat
deriving Repr, DecidableEq

/-- The typed HTTP errors thrown by the controllers. -/
inductive DomainError where
  | notFound (msg : String)
  | badRequest (msg : String)
  | forbidden (msg : String)
deriving Repr, DecidableEq

/-- JavaScript truthiness of an optional string (`undefined` and `''` are
falsy), used for `if (dto.field)` guards. -/
def jsTruthy (o : Option String) : Bool :=
  match o with
  | some s => s ≠ ""
  | none => false

/-- `x || d` on an optional string (`undefined` and `''` fall back). -/
def jsOrString (o : Option String) (d : String) : String :=
  match o with
  | some s => if s = "" then d else s
  | none => d

/-- `siteRepository.findOne({ id, owner: user })`: first non-deleted site
row with this id. -/
def findSite (db : Db) (id : Nat) : Option Site :=
  db.sites.find? (fun s => !s.deleted && s.id == id)

/-- `pageRepository.findOne({ id })`: first non-deleted page row with this
id. -/
def findPage (db : Db) (id : Nat) : Option Page :=
  db.pages.find? (fun p => !p.deleted && p.id == id)

/-- Number of non-deleted pages of a site (`pageRepository.count({site})`). -/
def sitePageCount (db : Db) (sid : Nat) : Nat :=
  db.pages.countP (fun p => !p.deleted && p.siteId == sid)

/-- A page row counting towards site `sid`'s homepages: non-deleted,
belonging to `sid`, flagged `isHomepage`. -/
def isHomepageRow (sid : Nat) (p : Page) : Bool :=
  !p.deleted && p.siteId == sid && p.isHomepage

/-- Number of non-deleted pages of site `sid` with `isHomepage = true`. -/
def homepageCount (db : Db) (sid : Nat) : Nat :=
  db.pages.countP (isHomepageRow sid)

/-- Number of non-deleted sections of a page
(`sectionRepository.count({page})`). -/
def pageSectionCount (db : Db) (pid : Nat) : Nat :=
  db.sections.countP (fun s => !s.deleted && s.pageId == pid)

/-- `pageRepository.update({site, isHomepage: true, [id: Not(keep)]},
{isHomepage: false})`: clears the homepage flag of every row of the site
(criteria-based update, so soft-deleted rows are hit too), optionally
excluding one id. -/
def unsetOtherHomepages (pages : List Page) (sid : Nat) (keep : Option Nat) : List Page :=
  pages.map (fun q =>
    if q.siteId == sid && q.isHomepage &&
        (match keep with | some k => q.id != k | none => true) then
      { q with isHomepage := false }
    else q)

/-- `pageRepository.save(row)` on a loaded entity: overwrite the row with
this primary key. -/
def savePage (pages : List Page) (row : Page) : List Page :=
  pages.map (fun q => if q.id == row.id then row else q)

/-- The row-level effect of `updatePage` on one stored page: the
homepage-unset criteria update followed by the save of the merged entity
`p'`.  (`savePage (unsetOtherHomepages pages sid (some pid)) p'` is the map
of this function over the table.) -/
def updateRowTransform (site : Site) (pid : Nat) (p' : Page) (q : Page) : Page :=
  let q1 :=
    if q.siteId == site.id && q.isHomepage && q.id != pid then
      { q with isHomepage := false }
    else q
  if q1.id == p'.id then p' else q1

/-- The row-level effect of two consecutive saves (`deletePage` saving the
new homepage and then the soft-removed page). -/
def saveTwoTransform (rowA rowB : Page) (q : Page) : Page :=
  let q1 := if q.id == rowA.id then rowA else q
  if q1.id == rowB.id then rowB else q1

/-- Plan limit `user.plan?.maxPagesPerSite || 50` for a user with no plan. -/
def maxPagesPerSite : Nat := 50

/-- Plan limit `user.plan?.maxSites || 10` for a user with no plan. -/
def maxSites : Nat := 10

/-! ## Page controller operations (`controllers/page.controller.ts`) -/

/-- `CreatePageDto` (`dto/page.dto.ts`): optional fields are `Option`s. -/
structure CreatePageDto where
  siteId : Nat
  title : String
  description : Option String
  content : Option String
  pageType : Option String
  isHomepage : Option Bool
  order : Option Int
deriving Repr, DecidableEq

/-- `PageController.createPage`: resolve the site, enforce the page quota,
build the page with a slug from the title, append a random suffix on a
collision within the site, unset the site's previous homepage when the new
page is flagged as homepage, and insert the row.  `rand` carries the digit
expansion for the collision suffix; the fresh row id is `db.nextId`. -/
def createPage (db : Db) (dto : CreatePageDto) (rand : List Char) :
    Except DomainError Db :=
  match findSite db dto.siteId with
  | none => .error (.notFound "Site not found or access denied")
  | some site =>
    if sitePageCount db site.id ≥ maxPagesPerSite then
      .error (.forbidden "You have reached the maximum number of pages for this site")
    else
      let slug0 := generateSlug dto.title
      let slugExists := db.pages.any (fun p =>
        !p.deleted && p.slug == slug0 && p.siteId == site.id)
      let slug := if slugExists then slug0 ++ "-" ++ randSuffix rand 2 6 else slug0
      let pages1 :=
        if dto.isHomepage.getD false then unsetOtherHomepages db.pages site.id none
        else db.pages
      let page : Page := {
        id := db.nextId
        siteId := site.id
        title := dto.title
        slug := slug
        description := dto.description.getD ""
        content := dto.content.getD ""
        status := "draft"
        pageType := jsOrString dto.pageType "page"
        isHomepage := dto.isHomepage.getD false
        order := dto.order.getD 0
        deleted := false }
      .ok { db with pages := pages1 ++ [page], nextId := db.nextId + 1 }

/-- `UpdatePageDto`: all fields optional; the `seo`/`settings` blob merges
touch no field read by any claim and are omitted. -/
structure UpdatePageDto where
  title : Option String
  description : Option String
  content : Option String
  status : Option String
  pageType : Option String
  isHomepage : Option Bool
  order : Option Int
deriving Repr, DecidableEq

/-- The field-merge section of `PageController.updatePage`, producing the
entity that is finally saved.  Faithful to the source, which runs
`page.title = updatePageDto.title` *before* testing
`updatePageDto.title !== page.title`: the test therefore compares the DTO
title with itself and the slug-regeneration branch under it is dead code. -/
def applyPageUpdate (db : Db) (site : Site) (id : Nat) (page : Page)
    (dto : UpdatePageDto) (rand : List Char) : Page :=
  let p1 :=
    match dto.title with
    | some t =>
      let pa := { page with title := t }
      if t ≠ pa.title then
        let s0 := generateSlug t
        let taken := db.pages.any (fun q =>
          !q.deleted && q.slug == s0 && q.siteId == site.id && q.id != id)
        { pa with slug := if taken then s0 ++ "-" ++ randSuffix rand 2 6 else s0 }
      else pa
    | none => page
  let p2 := match dto.description with | some d => { p1 with description := d } | none => p1
  let p3 := match dto.content with | some ct => { p2 with content := ct } | none => p2
  let p4 := if jsTruthy dto.status then { p3 with status := dto.status.getD "" } else p3
  let p5 := if jsTruthy dto.pageType then { p4 with pageType := dto.pageType.getD "" } else p4
  let p6 := match dto.isHomepage with | some hp => { p5 with isHomepage := hp } | none => p5
  match dto.order with | some o => { p6 with order := o } | none => p6

/-- `PageController.updatePage`: load the page, authorize through its site,
merge the DTO fields (see `applyPageUpdate`), unset the other homepages of
the site when the DTO sets `isHomepage` to `true`, and save. -/
def updatePage (db : Db) (id : Nat) (dto : UpdatePageDto) (rand : List Char) :
    Except DomainError Db :=
  match findPage db id with
  | none => .error (.notFound "Page not found")
  | some page =>
    match findSite db page.siteId with
    | none => .error (.forbidden "You do not have permission to update this page")
    | some site =>
      let p' := applyPageUpdate db site id page dto rand
      let pages1 :=
        if dto.isHomepage = some true then unsetOtherHomepages db.pages site.id (some id)
        else db.pages
      .ok { db with pages := savePage pages1 p' }

/-- `PageController.reorderPages`: reject an empty list; load the listed
non-deleted pages and reject unless every id was found; authorize each
page's site; then write `order := index` row by row
(`pageRepository.update(pageId, {order: index})`, a primary-key update).
No comparison with the full membership of any site is performed. -/
def reorderPages (db : Db) (pageIds : List Nat) : Except DomainError Db :=
  if pageIds.isEmpty then
    .error (.badRequest "No page IDs provided")
  else
    let found := db.pages.filter (fun p => !p.deleted && pageIds.contains p.id)
    if found.length ≠ pageIds.length then
      .error (.badRequest "One or more pages not found")
    else if found.any (fun p => (findSite db p.siteId).isNone) then
      .error (.forbidden "You do not have permission to reorder page")
    else
      .ok { db with pages := db.pages.map (fun p =>
        match List.indexOf? p.id pageIds with
        | some i => { p with order := (i : Int) }
        | none => p) }

/-- `PageController.deletePage`: load the page, authorize, refuse to delete
the last non-deleted page of the site, hand the homepage flag to the first
other non-deleted page of the site (`findOne` with no ordering clause) when
the target was the homepage, then soft-delete. -/
def deletePage (db : Db) (id : Nat) : Except DomainError Db :=
  match findPage db id with
  | none => .error (.notFound "Page not found")
  | some page =>
    match findSite db page.siteId with
    | none => .error (.forbidden "You do not have permission to delete this page")
    | some site =>
      if sitePageCount db site.id ≤ 1 then
        .error (.badRequest "Cannot delete the last page of a site")
      else
        let pages1 :=
          if page.isHomepage then
            match db.pages.find? (fun q =>
                !q.deleted && q.siteId == site.id && q.id != id) with
            | some another => savePage db.pages { another with isHomepage := true }
            | none => db.pages
          else db.pages
        .ok { db with pages := savePage pages1 { page with deleted := true } }

/-! ## Site controller operations (`controllers/site.controller.ts`) -/

/-- `CreateSiteDto`. -/
structure CreateSiteDto where
  name : String
  description : Option String
  template : Option String
deriving Repr, DecidableEq

/-- `SiteController.createSite`: enforce the site quota, build the site
with a slug from the name — appending `Math.random().toString(36)
.substring(2, 8)` when the slug is taken anywhere (site slugs are globally
scoped) — then insert the site together with a default `Home` page flagged
as homepage. -/
def createSite (db : Db) (dto : CreateSiteDto) (rand : List Char) :
    Except DomainError Db :=
  if (db.sites.countP (fun s => !s.deleted)) ≥ maxSites then
    .error (.forbidden "You have reached the maximum number of sites for your plan")
  else
    let slug0 := generateSlug dto.name
    let slugExists := db.sites.any (fun s => !s.deleted && s.slug == slug0)
    let slug := if slugExists then slug0 ++ "-" ++ randSuffix rand 2 8 else slug0
    let site : Site := {
      id := db.nextId
      name := dto.name
      slug := slug
      description := dto.description.getD ""
      template := jsOrString dto.template "business"
      status := "draft"
      deleted := false }
    let homePage : Page := {
      id := db.nextId + 1
      siteId := site.id
      title := "Home"
      slug := "home"
      description := ""
      content := ""
      status := "draft"
      pageType := "home"
      isHomepage := true
      order := 0
      deleted := false }
    .ok { db with
      sites := db.sites ++ [site]
      pages := db.pages ++ [homePage]
      nextId := db.nextId + 2 }

/-- `UpdateSiteDto`: scalar fields; the color/`seo`/`customCode` blob
fields touch nothing any claim reads and are omitted. -/
structure UpdateSiteDto where
  name : Option String
  description : Option String
  status : Option String
  template : Option String
deriving Repr, DecidableEq

/-- `SiteController.updateSite`: load the site by id, merge DTO fields and
save.  Faithful to the source, which runs `site.name = updateSiteDto.name`
*before* testing `updateSiteDto.name !== site.name`, so — exactly as in
`updatePage` — the slug-regeneration branch is dead code. -/
def updateSite (db : Db) (id : Nat) (dto : UpdateSiteDto) (rand : List Char) :
    Except DomainError Db :=
  match db.sites.find? (fun s => !s.deleted && s.id == id) with
  | none => .error (.notFound "Site not found")
  | some site =>
    let s1 :=
      match dto.name with
      | some n =>
        let sa := { site with name := n }
        if n ≠ sa.name then
          let c0 := generateSlug n
          let taken := db.sites.any (fun t =>
            !t.deleted && t.slug == c0 && t.id != id)
          { sa with slug := if taken then c0 ++ "-" ++ randSuffix rand 2 8 else c0 }
        else sa
      | none => site
    let s2 := match dto.description with | some d => { s1 with description := d } | none => s1
    let s3 := if jsTruthy dto.status then { s2 with status := dto.status.getD "" } else s2
    let s4 := if jsTruthy dto.template then { s3 with template := dto.template.getD "" } else s3
    .ok { db with sites := db.sites.map (fun t => if t.id == id then s4 else t) }

/-! ## Section controller operations (`SectionController`) -/

/-- `SectionController.reorderSections`: same shape as `reorderPages`; the
authorization walks `section.page.site` (the page relation is a join by
foreign key, not filtered by soft-deletion) and then checks site ownership.
A dangling page reference would crash the handler, which the embedding
renders as the forbidden error (either way the request fails before any
write). -/
def reorderSections (db : Db) (sectionIds : List Nat) : Except DomainError Db :=
  if sectionIds.isEmpty then
    .error (.badRequest "No section IDs provided")
  else
    let found := db.sections.filter (fun s => !s.deleted && sectionIds.contains s.id)
    if found.length ≠ sectionIds.length then
      .error (.badRequest "One or more sections not found")
    else if found.any (fun s =>
        match db.pages.find? (fun p => p.id == s.pageId) with
        | none => true
        | some p => (findSite db p.siteId).isNone) then
      .error (.forbidden "You do not have permission to reorder section")
    else
      .ok { db with sections := db.sections.map (fun s =>
        match List.indexOf? s.id sectionIds with
        | some i => { s with order := (i : Int) }
        | none => s) }

/-- `SectionController.deleteSection`: load the section, authorize through
`section.page.site`, refuse to delete the last non-deleted section of the
page, then soft-delete. -/
def deleteSection (db : Db) (id : Nat) : Except DomainError Db :=
  match db.sections.find? (fun s => !s.deleted && s.id == id) with
  | none => .error (.notFound "Section not found")
  | some sec =>
    match db.pages.find? (fun p => p.id == sec.pageId) with
    | none => .error (.forbidden "You do not have permission to delete this section")
    | some page =>
      match findSite db page.siteId with
      | none => .error (.forbidden "You do not have permission to delete this section")
      | some _ =>
        if pageSectionCount db sec.pageId ≤ 1 then
          .error (.badRequest "Cannot delete the last section of a page")
        else
          .ok { db with sections := db.sections.map (fun s =>
            if s.id == id then { sec with deleted := true } else s) }

/-! ## Operation sequences over pages -/

/-- One page-collection request, as fired at `PageController`. -/
inductive PageOp where
  | create (dto : CreatePageDto) (rand : List Char)
  | update (id : Nat) (dto : UpdatePageDto) (rand : List Char)
  | delete (id : Nat)
deriving Repr

/-- Dispatch one request. -/
def applyPageOp (db : Db) : PageOp → Except DomainError Db
  | .create dto rand => createPage db dto rand
  | .update id dto rand => updatePage db id dto rand
  | .delete id => deletePage db id

/-- Run a request sequence; a request that throws leaves the database
unchanged and the sequence continues. -/
def runPageOps (db : Db) : List PageOp → Db
  | [] => db
  | op :: ops =>
    match applyPageOp db op with
    | .ok db' => runPageOps db' ops
    | .error _ => runPageOps db ops

/-- Every site has at most one non-deleted homepage. -/
def HomepageAtMostOne (db : Db) : Prop :=
  ∀ sid, homepageCount db sid ≤ 1

/-- Page primary keys are unique (a database guarantee). -/
def PageIdsNodup (db : Db) : Prop :=
  (db.pages.map Page.id).Nodup

/-- Every page id was produced by the id generator (a database guarantee,
keeping fresh ids fresh). -/
def PageIdsBounded (db : Db) : Prop :=
  ∀ p ∈ db.pages, p.id < db.nextId

/-- The order value of the page row with a given id, if any. -/
def pageOrderById (db : Db) (id : Nat) : Option Int :=
  (db.pages.find? (fun p => p.id == id)).map Page.order

/-! ## Concrete database states used to exercise the operations -/

/-- A site owned by the requesting user. -/
def demoSite : Site := ⟨1, "Acme", "acme", "", "business", "draft", false⟩

/-- `demoSite` with no pages at all. -/
def emptySiteDb : Db := ⟨[demoSite], [], [], 10⟩

/-- A page-creation payload not flagged as homepage. -/
def aboutDto : CreatePageDto := ⟨1, "About", none, none, none, none, none⟩

/-- `demoSite` with one page (the homepage, also the sole page) carrying one
section. -/
def singlePageDb : Db :=
  ⟨[demoSite],
   [⟨2, 1, "Old Title", "old-title", "", "", "draft", "page", true, 0, false⟩],
   [⟨3, 2, 0, false⟩],
   10⟩

/-- `demoSite` with three pages in table order: the homepage (id 1,
order 0), then id 2 with order 5, then id 3 with order 1. -/
def threePagesDb : Db :=
  ⟨[demoSite],
   [⟨1, 1, "Home", "home", "", "", "draft", "home", true, 0, false⟩,
    ⟨2, 1, "B", "b", "", "", "draft", "page", false, 5, false⟩,
    ⟨3, 1, "C", "c", "", "", "draft", "page", false, 1, false⟩],
   [], 10⟩

/-- `threePagesDb` after `reorderPages [2, 1]`: the two listed pages get
orders `0` and `1`; page 3 keeps its old order. -/
def threePagesReordered : Db :=
  ⟨[demoSite],
   [⟨1, 1, "Home", "home", "", "", "draft", "home", true, 1, false⟩,
    ⟨2, 1, "B", "b", "", "", "draft", "page", false, 0, false⟩,
    ⟨3, 1, "C", "c", "", "", "draft", "page", false, 1, false⟩],
   [], 10⟩

/-- `threePagesDb` after `deletePage 1`: the deleted homepage hands its
flag to page 2 (the first remaining page in table order). -/
def threePagesAfterDelete : Db :=
  ⟨[demoSite],
   [⟨1, 1, "Home", "home", "", "", "draft", "home", true, 0, true⟩,
    ⟨2, 1, "B", "b", "", "", "draft", "page", true, 5, false⟩,
    ⟨3, 1, "C", "c", "", "", "draft", "page", false, 1, false⟩],
   [], 10⟩

/-- A user with no rows yet. -/
def emptyDb : Db := ⟨[], [], [], 0⟩

/-- The creation payload named by the specification scenario. -/
def mySiteDto : CreateSiteDto := ⟨"My Site", none, none⟩

/-- The state after the first `createSite` of `mySiteDto` on `emptyDb`:
one site slugged `my-site` with its default `Home` page. -/
def firstMySiteDb : Db :=
  ⟨[⟨0, "My Site", "my-site", "", "business", "draft", false⟩],
   [⟨1, 0, "Home", "home", "", "", "draft", "home", true, 0, false⟩],
   [], 2⟩

/-! ### Supporting lemmas about the slug pipeline -/

theorem char_toNat_ofNat (n : Nat) (h : n.isValidChar) :
    (Char.ofNat n).toNat = n := by
  unfold Char.ofNat
  rw [dif_pos h]
  unfold Char.ofNatAux Char.toNat
  exact BitVec.toNat_ofNatLt _ _

/-- `asciiToLower` never returns an ASCII uppercase letter. -/
theorem asciiToLower_not_upper (c : Char) :
    ¬(65 ≤ (asciiToLower c).toNat ∧ (asciiToLower c).toNat ≤ 90) := by
  unfold asciiToLower
  by_cases h : 65 ≤ c.toNat ∧ c.toNat ≤ 90
  · rw [if_pos h]
    rw [char_toNat_ofNat (c.toNat + 32) (Or.inl (by omega))]
    omega
  · rw [if_neg h]
    exact h

theorem mem_collapseWsAux (b : Bool) (l : List Char) (c : Char)
    (h : c ∈ collapseWsAux b l) : c = '-' ∨ c ∈ l := by
  induction l generalizing b with
  | nil => simp [collapseWsAux] at h
  | cons d rest ih =>
    unfold collapseWsAux at h
    by_cases hd : isJsWhitespace d
    · rw [if_pos hd] at h
      rcases List.mem_append.mp h with h1 | h2
      · cases hb : b
        · rw [hb] at h1
          simp at h1
          exact Or.inl h1
        · rw [hb] at h1
          simp at h1
      · rcases ih true h2 with h3 | h3
        · exact Or.inl h3
        · exact Or.inr (List.mem_cons_of_mem d h3)
    · rw [if_neg hd] at h
      rcases List.mem_cons.mp h with h1 | h2
      · exact Or.inr (h1 ▸ List.mem_cons_self d rest)
      · rcases ih false h2 with h3 | h3
        · exact Or.inl h3
        · exact Or.inr (List.mem_cons_of_mem d h3)

theorem mem_collapseHyphensAux (b : Bool) (l : List Char) (c : Char)
    (h : c ∈ collapseHyphensAux b l) : c = '-' ∨ c ∈ l := by
  induction l generalizing b with
  | nil => simp [collapseHyphensAux] at h
  | cons d rest ih =>
    unfold collapseHyphensAux at h
    by_cases hd : d = '-'
    · rw [if_pos hd] at h
      rcases List.mem_append.mp h with h1 | h2
      · cases hb : b
        · rw [hb] at h1
          simp at h1
          exact Or.inl h1
        · rw [hb] at h1
          simp at h1
      · rcases ih true h2 with h3 | h3
        · exact Or.inl h3
        · exact Or.inr (List.mem_cons_of_mem d h3)
    · rw [if_neg hd] at h
      rcases List.mem_cons.mp h with h1 | h2
      · exact Or.inr (h1 ▸ List.mem_cons_self d rest)
      · rcases ih false h2 with h3 | h3
        · exact Or.inl h3
        · exact Or.inr (List.mem_cons_of_mem d h3)

theorem mem_trimLeadHyphens (l : List Char) (c : Char)
    (h : c ∈ trimLeadHyphens l) : c ∈ l :=
  (List.dropWhile_sublist _).mem h

theorem mem_trimTrailHyphens (l : List Char) (c : Char)
    (h : c ∈ trimTrailHyphens l) : c ∈ l := by
  unfold trimTrailHyphens at h
  rw [List.mem_reverse] at h
  exact List.mem_reverse.mp ((List.dropWhile_sublist _).mem h)

/-! ### Supporting lemmas: counting and membership -/

theorem two_le_countP_of_two_mem {α : Type} {l : List α} {p : α → Bool} {a b : α}
    (ha : a ∈ l) (hb : b ∈ l) (hne : a ≠ b) (hpa : p a = true) (hpb : p b = true) :
    2 ≤ l.countP p := by
  induction l with
  | nil => cases ha
  | cons c cs ih =>
    rw [List.countP_cons]
    rcases List.mem_cons.mp ha with rfl | ha'
    · have hb' : b ∈ cs := by
        rcases List.mem_cons.mp hb with rfl | hbc
        · exact absurd rfl (Ne.symm hne)
        · exact hbc
      have h1 : 0 < cs.countP p := List.countP_pos_iff.mpr ⟨b, hb', hpb⟩
      rw [if_pos hpa]
      omega
    · rcases List.mem_cons.mp hb with rfl | hb'
      · have h1 : 0 < cs.countP p := List.countP_pos_iff.mpr ⟨a, ha', hpa⟩
        rw [if_pos hpb]
        omega
      · have h2 := ih ha' hb'
        split <;> omega

theorem mem_id_eq_of_nodup {l : List Page} (hnd : (l.map Page.id).Nodup)
    {a b : Page} (ha : a ∈ l) (hb : b ∈ l) (hid : a.id = b.id) : a = b :=
  List.inj_on_of_nodup_map hnd ha hb hid

/-! ### Supporting lemmas: the page-row transformations -/

theorem unsetOtherHomepages_map_id (pages : List Page) (sid : Nat) (keep : Option Nat) :
    (unsetOtherHomepages pages sid keep).map Page.id = pages.map Page.id := by
  unfold unsetOtherHomepages
  rw [List.map_map]
  apply List.map_congr_left
  intro q _
  dsimp [Function.comp]
  split <;> rfl

theorem savePage_map_id (pages : List Page) (row : Page) :
    (savePage pages row).map Page.id = pages.map Page.id := by
  unfold savePage
  rw [List.map_map]
  apply List.map_congr_left
  intro q _
  dsimp [Function.comp]
  by_cases h : (q.id == row.id) = true
  · rw [if_pos h]
    have : q.id = row.id := by simpa using h
    exact this.symm
  · rw [if_neg h]

theorem countP_unsetOtherHomepages_none (pages : List Page) (sid : Nat) :
    (unsetOtherHomepages pages sid none).countP (isHomepageRow sid) = 0 := by
  unfold unsetOtherHomepages
  rw [List.countP_map, List.countP_eq_zero]
  intro q _
  dsimp [Function.comp]
  by_cases h : (q.siteId == sid && q.isHomepage && true) = true
  · rw [if_pos h]
    unfold isHomepageRow
    simp
  · rw [if_neg h]
    unfold isHomepageRow
    intro hc
    apply h
    simp only [Bool.and_eq_true] at hc ⊢
    exact ⟨⟨hc.1.2, hc.2⟩, trivial⟩

theorem countP_unsetOtherHomepages_other (pages : List Page) (sid sid' : Nat)
    (keep : Option Nat) (hne : sid' ≠ sid) :
    (unsetOtherHomepages pages sid keep).countP (isHomepageRow sid') =
      pages.countP (isHomepageRow sid') := by
  unfold unsetOtherHomepages
  rw [List.countP_map]
  apply List.countP_congr
  intro q _
  dsimp [Function.comp]
  split
  case isTrue h =>
    have hs : q.siteId = sid := by
      simp only [Bool.and_eq_true] at h
      simpa using h.1.1
    unfold isHomepageRow
    simp only [Bool.and_eq_true]
    constructor
    · rintro ⟨⟨-, hss⟩, hfalse⟩
      cases hfalse
    · rintro ⟨⟨-, hss⟩, -⟩
      have : sid = sid' := by simpa [hs] using hss
      exact absurd this.symm hne
  case isFalse h => exact Iff.rfl

/-- The merged entity of `updatePage` keeps the page's identity, site,
deletion flag and — the title comparison being dead code — its slug; its
homepage flag is the DTO's when supplied. -/
theorem applyPageUpdate_fields (db : Db) (site : Site) (id : Nat) (page : Page)
    (dto : UpdatePageDto) (rand : List Char) :
    (applyPageUpdate db site id page dto rand).id = page.id ∧
    (applyPageUpdate db site id page dto rand).siteId = page.siteId ∧
    (applyPageUpdate db site id page dto rand).deleted = page.deleted ∧
    (applyPageUpdate db site id page dto rand).slug = page.slug ∧
    (applyPageUpdate db site id page dto rand).isHomepage =
      dto.isHomepage.getD page.isHomepage := by
  obtain ⟨t, d, ct, st, pt, hp, o⟩ := dto
  unfold applyPageUpdate
  cases t <;> cases d <;> cases ct <;> cases hp <;> cases o <;>
    · dsimp only
      split_ifs <;> simp_all

/-! ### Supporting lemmas: elimination of the controller operations -/

theorem createPage_ok_spec (db : Db) (dto : CreatePageDto) (rand : List Char) (db' : Db)
    (h : createPage db dto rand = .ok db') :
    ∃ site newPage,
      findSite db dto.siteId = some site ∧ site.id = dto.siteId ∧
      db'.sites = db.sites ∧ db'.nextId = db.nextId + 1 ∧
      newPage.id = db.nextId ∧ newPage.siteId = site.id ∧
      newPage.isHomepage = dto.isHomepage.getD false ∧ newPage.deleted = false ∧
      db'.pages =
        (if dto.isHomepage.getD false then unsetOtherHomepages db.pages site.id none
         else db.pages) ++ [newPage] := by
  unfold createPage at h
  split at h
  · cases h
  · rename_i site hfind
    split at h
    · cases h
    · have hx := Except.ok.inj h
      subst hx
      have hsid : site.id = dto.siteId := by
        have hp := List.find?_some hfind
        simpa using (Bool.and_eq_true _ _ |>.mp hp).2
      exact ⟨site, _, hfind, hsid, rfl, rfl, rfl, rfl, rfl, rfl, rfl⟩

theorem updatePage_ok_spec (db : Db) (pid : Nat) (dto : UpdatePageDto) (rand : List Char)
    (db' : Db) (h : updatePage db pid dto rand = .ok db') :
    ∃ page site p',
      findPage db pid = some page ∧ page.id = pid ∧ page.deleted = false ∧
      findSite db page.siteId = some site ∧ site.id = page.siteId ∧
      p'.id = page.id ∧ p'.siteId = page.siteId ∧ p'.deleted = page.deleted ∧
      p'.slug = page.slug ∧
      p'.isHomepage = dto.isHomepage.getD page.isHomepage ∧
      db'.sites = db.sites ∧ db'.nextId = db.nextId ∧
      db'.pages = savePage
        (if dto.isHomepage = some true then unsetOtherHomepages db.pages site.id (some pid)
         else db.pages) p' := by
  unfold updatePage at h
  split at h
  · cases h
  · rename_i page hfindp
    split at h
    · cases h
    · rename_i site hfinds
      have hx := Except.ok.inj h
      subst hx
      have hpagep : page.deleted = false ∧ page.id = pid := by
        have hp := List.find?_some hfindp
        simp only [Bool.and_eq_true] at hp
        exact ⟨by simpa using hp.1, by simpa using hp.2⟩
      have hsid : site.id = page.siteId := by
        have hp := List.find?_some hfinds
        simpa using (Bool.and_eq_true _ _ |>.mp hp).2
      have hfields := applyPageUpdate_fields db site pid page dto rand
      exact ⟨page, site, _, hfindp, hpagep.2, hpagep.1, hfinds, hsid,
        hfields.1, hfields.2.1, hfields.2.2.1, hfields.2.2.2.1, hfields.2.2.2.2,
        rfl, rfl, rfl⟩

theorem deletePage_ok_spec (db : Db) (pid : Nat) (db' : Db)
    (h : deletePage db pid = .ok db') :
    ∃ page site,
      findPage db pid = some page ∧ page.id = pid ∧ page.deleted = false ∧
      findSite db page.siteId = some site ∧ site.id = page.siteId ∧
      1 < sitePageCount db site.id ∧
      db'.sites = db.sites ∧ db'.nextId = db.nextId ∧
      db'.pages = savePage
        (if page.isHomepage then
          match db.pages.find? (fun q => !q.deleted && q.siteId == site.id && q.id != pid) with
          | some another => savePage db.pages { another with isHomepage := true }
          | none => db.pages
         else db.pages) { page with deleted := true } := by
  unfold deletePage at h
  split at h
  · cases h
  · rename_i page hfindp
    split at h
    · cases h
    · rename_i site hfinds
      split at h
      · cases h
      · rename_i hc
        have hx := Except.ok.inj h
        subst hx
        have hpagep : page.deleted = false ∧ page.id = pid := by
          have hp := List.find?_some hfindp
          simp only [Bool.and_eq_true] at hp
          exact ⟨by simpa using hp.1, by simpa using hp.2⟩
        have hsid : site.id = page.siteId := by
          have hp := List.find?_some hfinds
          simpa using (Bool.and_eq_true _ _ |>.mp hp).2
        exact ⟨page, site, hfindp, hpagep.2, hpagep.1, hfinds, hsid, by omega, rfl, rfl, rfl⟩

/-! ### Supporting lemmas: row transformers and counting homepages -/

theorem countP_id_beq_le_one {l : List Page} (hnd : (l.map Page.id).Nodup) (pid : Nat) :
    l.countP (fun q => q.id == pid) ≤ 1 := by
  have h1 := List.nodup_iff_count_le_one.mp hnd pid
  rw [List.count_eq_countP, List.countP_map] at h1
  exact h1

theorem countP_savePage_le {l : List Page} (hnd : (l.map Page.id).Nodup)
    {t : Page} (ht : t ∈ l) (row : Page) (hrowid : row.id = t.id)
    (p : Page → Bool) (himp : p row = true → p t = true) :
    (savePage l row).countP p ≤ l.countP p := by
  unfold savePage
  rw [List.countP_map]
  apply List.countP_mono_left
  intro q hq hpred
  rw [Function.comp_apply] at hpred
  by_cases hqid : (q.id == row.id) = true
  · rw [if_pos hqid] at hpred
    have hq_eq : q = t := mem_id_eq_of_nodup hnd hq ht (by
      have : q.id = row.id := by simpa using hqid
      rw [this, hrowid])
    rw [hq_eq]
    exact himp hpred
  · rw [if_neg hqid] at hpred
    exact hpred

theorem updateRowTransform_cases (site : Site) (pid : Nat) (p' q : Page)
    (hp'id : p'.id = pid) :
    (q.id = pid → updateRowTransform site pid p' q = p') ∧
    (q.id ≠ pid → (q.siteId == site.id && q.isHomepage) = true →
      updateRowTransform site pid p' q = { q with isHomepage := false }) ∧
    (q.id ≠ pid → (q.siteId == site.id && q.isHomepage) = false →
      updateRowTransform site pid p' q = q) := by
  unfold updateRowTransform
  refine ⟨?_, ?_, ?_⟩
  · intro h1
    simp [h1, hp'id]
  · intro h1 h2
    simp only [Bool.and_eq_true] at h2
    simp [h1, h2.1, h2.2, hp'id]
  · intro h1 h2
    rw [Bool.and_eq_false_iff] at h2
    have hco : (q.siteId == site.id && q.isHomepage && q.id != pid) = false := by
      rcases h2 with h2 | h2 <;> simp [h2]
    rw [hco]
    simp [h1, hp'id]

theorem saveTwoTransform_cases (rowA rowB q : Page) (hAB : rowA.id ≠ rowB.id) :
    (q.id = rowA.id → saveTwoTransform rowA rowB q = rowA) ∧
    (q.id = rowB.id → saveTwoTransform rowA rowB q = rowB) ∧
    (q.id ≠ rowA.id → q.id ≠ rowB.id → saveTwoTransform rowA rowB q = q) := by
  unfold saveTwoTransform
  refine ⟨?_, ?_, ?_⟩
  · intro h1
    simp [h1, hAB]
  · intro h1
    simp [h1, Ne.symm hAB]
  · intro h1 h2
    simp [h1, h2]

theorem homepageCount_createPage (db : Db) (dto : CreatePageDto) (rand : List Char)
    (db' : Db) (h : createPage db dto rand = .ok db') :
    (∀ sid, sid ≠ dto.siteId → homepageCount db' sid = homepageCount db sid) ∧
    (dto.isHomepage.getD false = true → homepageCount db' dto.siteId = 1) ∧
    (dto.isHomepage.getD false = false →
      homepageCount db' dto.siteId = homepageCount db dto.siteId) := by
  obtain ⟨site, np, hfind, hsid, hsites, hnext, hnpid, hnpsid, hnphp, hnpdel, hpages⟩ :=
    createPage_ok_spec db dto rand db' h
  refine ⟨?_, ?_, ?_⟩
  · intro sid hne
    have hnp0 : isHomepageRow sid np = false := by
      unfold isHomepageRow
      have hbeq : (np.siteId == sid) = false := by
        rw [hnpsid, hsid]
        exact beq_eq_false_iff_ne.mpr (Ne.symm hne)
      rw [hbeq]
      simp
    unfold homepageCount
    rw [hpages, List.countP_append]
    have hone : List.countP (isHomepageRow sid) [np] = 0 := by
      simp [List.countP_cons, hnp0]
    rw [hone]
    by_cases hb : dto.isHomepage.getD false = true
    · rw [if_pos hb,
        countP_unsetOtherHomepages_other db.pages site.id sid none (by rw [hsid]; exact hne)]
      omega
    · rw [if_neg hb]
      omega
  · intro hb
    unfold homepageCount
    rw [hpages, List.countP_append, if_pos hb, ← hsid, countP_unsetOtherHomepages_none]
    have hnp1 : isHomepageRow site.id np = true := by
      unfold isHomepageRow
      rw [hnpdel, hnphp, hb, hnpsid]
      simp
    simp [List.countP_cons, hnp1]
  · intro hb
    have hnp0 : isHomepageRow dto.siteId np = false := by
      unfold isHomepageRow
      rw [hnphp, hb]
      simp
    unfold homepageCount
    rw [hpages, List.countP_append, if_neg (by simp [hb])]
    simp [List.countP_cons, hnp0]

theorem homepageCount_updatePage (db : Db) (pid : Nat) (dto : UpdatePageDto)
    (rand : List Char) (db' : Db) (h : updatePage db pid dto rand = .ok db')
    (hnd : PageIdsNodup db) :
    (∀ sid, homepageCount db sid ≤ 1 → homepageCount db' sid ≤ 1) ∧
    (dto.isHomepage = some true → ∀ page0, findPage db pid = some page0 →
      homepageCount db' page0.siteId = 1) := by
  obtain ⟨page, site, p', hfindp, hpid, hpdel, hfinds, hsid, hp'id, hp'site, hp'del,
    hp'slug, hp'hp, hsites, hnext, hpages⟩ := updatePage_ok_spec db pid dto rand db' h
  have hpmem : page ∈ db.pages := by
    unfold findPage at hfindp
    exact List.mem_of_find?_eq_some hfindp
  have hp'pid : p'.id = pid := by rw [hp'id, hpid]
  by_cases hhp : dto.isHomepage = some true
  · have hcomp : db'.pages = db.pages.map (updateRowTransform site pid p') := by
      rw [hpages, if_pos hhp]
      unfold savePage unsetOtherHomepages updateRowTransform
      rw [List.map_map]
      rfl
    have hp'hp1 : p'.isHomepage = true := by rw [hp'hp, hhp]; rfl
    have hA : ∀ q ∈ db.pages,
        isHomepageRow page.siteId (updateRowTransform site pid p' q) = true → q.id = pid := by
      intro q hq hpred
      by_cases hqid : q.id = pid
      · exact hqid
      · exfalso
        by_cases hcond : (q.siteId == site.id && q.isHomepage) = true
        · rw [(updateRowTransform_cases site pid p' q hp'pid).2.1 hqid hcond] at hpred
          unfold isHomepageRow at hpred
          simp at hpred
        · rw [(updateRowTransform_cases site pid p' q hp'pid).2.2 hqid
            (by revert hcond; cases hx : (q.siteId == site.id && q.isHomepage) <;> simp)] at hpred
          unfold isHomepageRow at hpred
          simp only [Bool.and_eq_true] at hpred
          apply hcond
          simp only [Bool.and_eq_true]
          exact ⟨by rw [hsid]; exact hpred.1.2, hpred.2⟩
    have hEq1 : homepageCount db' page.siteId = 1 := by
      apply le_antisymm
      · unfold homepageCount
        rw [hcomp, List.countP_map]
        calc db.pages.countP (isHomepageRow page.siteId ∘ updateRowTransform site pid p')
            ≤ db.pages.countP (fun q => q.id == pid) := by
              apply List.countP_mono_left
              intro q hq hpred
              rw [Function.comp_apply] at hpred
              simpa using hA q hq hpred
          _ ≤ 1 := countP_id_beq_le_one hnd pid
      · have hmem' : p' ∈ db'.pages := by
          rw [hcomp]
          exact List.mem_map.mpr ⟨page, hpmem,
            (updateRowTransform_cases site pid p' page hp'pid).1 hpid⟩
        have hpredp' : isHomepageRow page.siteId p' = true := by
          unfold isHomepageRow
          rw [hp'del, hpdel, hp'site, hp'hp1]
          simp
        have := List.countP_pos_iff.mpr ⟨p', hmem', hpredp'⟩
        unfold homepageCount
        omega
    constructor
    · intro sid hle
      by_cases hs : sid = page.siteId
      · rw [hs, hEq1]
      · have hC : ∀ q ∈ db.pages,
            isHomepageRow sid (updateRowTransform site pid p' q) = isHomepageRow sid q := by
          intro q hq
          by_cases hqid : q.id = pid
          · have hqp : q = page := mem_id_eq_of_nodup hnd hq hpmem (by rw [hqid, hpid])
            rw [(updateRowTransform_cases site pid p' q hp'pid).1 hqid, hqp]
            unfold isHomepageRow
            have h1 : (p'.siteId == sid) = false := by
              rw [hp'site]
              exact beq_eq_false_iff_ne.mpr (Ne.symm hs)
            have h2 : (page.siteId == sid) = false := beq_eq_false_iff_ne.mpr (Ne.symm hs)
            rw [h1, h2]
            simp
          · by_cases hcond : (q.siteId == site.id && q.isHomepage) = true
            · rw [(updateRowTransform_cases site pid p' q hp'pid).2.1 hqid hcond]
              unfold isHomepageRow
              have hqsid : q.siteId = page.siteId := by
                have hx := (Bool.and_eq_true _ _ |>.mp hcond).1
                have : q.siteId = site.id := by simpa using hx
                rw [this, hsid]
              have hf : (q.siteId == sid) = false := by
                rw [hqsid]
                exact beq_eq_false_iff_ne.mpr (Ne.symm hs)
              simp [hf]
            · rw [(updateRowTransform_cases site pid p' q hp'pid).2.2 hqid
                (by revert hcond; cases hx : (q.siteId == site.id && q.isHomepage) <;> simp)]
        unfold homepageCount
        rw [hcomp, List.countP_map,
          List.countP_congr (fun q hq => by rw [Function.comp_apply, hC q hq])]
        exact hle
    · intro _ page0 hfind0
      have hpp : page0 = page := by
        rw [hfindp] at hfind0
        exact (Option.some.inj hfind0).symm
      rw [hpp]
      exact hEq1
  · have hcomp : db'.pages = savePage db.pages p' := by
      rw [hpages, if_neg hhp]
    constructor
    · intro sid hle
      unfold homepageCount
      rw [hcomp]
      refine le_trans (countP_savePage_le hnd hpmem p' (by rw [hp'id]) _ ?_) hle
      intro hx
      unfold isHomepageRow at hx ⊢
      simp only [Bool.and_eq_true] at hx ⊢
      refine ⟨⟨?_, ?_⟩, ?_⟩
      · rw [← hp'del]
        exact hx.1.1
      · rw [← hp'site]
        exact hx.1.2
      · have hphp : p'.isHomepage = true → page.isHomepage = true := by
          rw [hp'hp]
          cases hdto : dto.isHomepage with
          | none => intro hy; exact hy
          | some b =>
            cases b with
            | true => exact absurd hdto hhp
            | false => intro hy; cases hy
        exact hphp hx.2
    · intro hx
      exact absurd hx hhp

theorem homepageCount_deletePage (db : Db) (pid : Nat) (db' : Db)
    (h : deletePage db pid = .ok db') (hnd : PageIdsNodup db) :
    ∀ sid, homepageCount db sid ≤ 1 → homepageCount db' sid ≤ 1 := by
  obtain ⟨page, site, hfindp, hpid, hpdel, hfinds, hsid, hcnt, hsites, hnext, hpages⟩ :=
    deletePage_ok_spec db pid db' h
  have hpmem : page ∈ db.pages := by
    unfold findPage at hfindp
    exact List.mem_of_find?_eq_some hfindp
  have hdelrow : ∀ sid, isHomepageRow sid { page with deleted := true } = false := by
    intro sid
    unfold isHomepageRow
    simp
  intro sid hle
  by_cases hhp : page.isHomepage = true
  · rw [if_pos hhp] at hpages
    cases hfa : db.pages.find? (fun q => !q.deleted && q.siteId == site.id && q.id != pid) with
    | none =>
      rw [hfa] at hpages
      have hred : (match (none : Option Page) with
          | some another => savePage db.pages { another with isHomepage := true }
          | none => db.pages) = db.pages := rfl
      rw [hred] at hpages
      unfold homepageCount
      rw [hpages]
      refine le_trans (countP_savePage_le hnd hpmem ({ page with deleted := true }) rfl _ ?_) hle
      intro hx
      rw [hdelrow sid] at hx
      cases hx
    | some a =>
      rw [hfa] at hpages
      have hred : (match (some a : Option Page) with
          | some another => savePage db.pages { another with isHomepage := true }
          | none => db.pages) = savePage db.pages { a with isHomepage := true } := rfl
      rw [hred] at hpages
      have hamem : a ∈ db.pages := List.mem_of_find?_eq_some hfa
      have hafacts := List.find?_some hfa
      simp only [Bool.and_eq_true] at hafacts
      have hadel : a.deleted = false := by simpa using hafacts.1.1
      have hasite : a.siteId = site.id := by simpa using hafacts.1.2
      have haid : a.id ≠ pid := by simpa using hafacts.2
      have hAB : ({ a with isHomepage := true } : Page).id ≠
          ({ page with deleted := true } : Page).id := by
        simpa [hpid] using haid
      have hcomp : db'.pages = db.pages.map
          (saveTwoTransform { a with isHomepage := true } { page with deleted := true }) := by
        rw [hpages]
        unfold savePage saveTwoTransform
        rw [List.map_map]
        rfl
      by_cases hs : sid = page.siteId
      · have hA : ∀ q ∈ db.pages, isHomepageRow sid
            (saveTwoTransform { a with isHomepage := true } { page with deleted := true } q)
            = true → q.id = a.id := by
          intro q hq hpred
          by_cases h1 : q.id = a.id
          · exact h1
          · by_cases h2 : q.id = page.id
            · rw [(saveTwoTransform_cases _ _ q hAB).2.1 h2] at hpred
              rw [hdelrow sid] at hpred
              cases hpred
            · rw [(saveTwoTransform_cases _ _ q hAB).2.2 h1 h2] at hpred
              exfalso
              have hqne : q ≠ page := fun hqp => h2 (by rw [hqp])
              have hpredpage : isHomepageRow sid page = true := by
                unfold isHomepageRow
                rw [hpdel, hhp, hs]
                simp
              have h2le := two_le_countP_of_two_mem hq hpmem hqne hpred hpredpage
              unfold homepageCount at hle
              omega
        unfold homepageCount
        rw [hcomp, List.countP_map]
        calc db.pages.countP _
            ≤ db.pages.countP (fun q => q.id == a.id) := by
              apply List.countP_mono_left
              intro q hq hpred
              rw [Function.comp_apply] at hpred
              simpa using hA q hq hpred
          _ ≤ 1 := countP_id_beq_le_one hnd a.id
      · have hC : ∀ q ∈ db.pages, isHomepageRow sid
            (saveTwoTransform { a with isHomepage := true } { page with deleted := true } q)
            = isHomepageRow sid q := by
          intro q hq
          by_cases h1 : q.id = a.id
          · have hqa : q = a := mem_id_eq_of_nodup hnd hq hamem h1
            rw [(saveTwoTransform_cases _ _ q hAB).1 h1, hqa]
            unfold isHomepageRow
            have hf : (a.siteId == sid) = false := by
              rw [hasite, hsid]
              exact beq_eq_false_iff_ne.mpr (Ne.symm hs)
            simp [hf]
          · by_cases h2 : q.id = page.id
            · have hqp : q = page := mem_id_eq_of_nodup hnd hq hpmem h2
              rw [(saveTwoTransform_cases _ _ q hAB).2.1 h2, hqp]
              unfold isHomepageRow
              have hf : (page.siteId == sid) = false := beq_eq_false_iff_ne.mpr (Ne.symm hs)
              simp [hf]
            · rw [(saveTwoTransform_cases _ _ q hAB).2.2 h1 h2]
        unfold homepageCount
        rw [hcomp, List.countP_map,
          List.countP_congr (fun q hq => by rw [Function.comp_apply, hC q hq])]
        exact hle
  · rw [if_neg hhp] at hpages
    unfold homepageCount
    rw [hpages]
    refine le_trans (countP_savePage_le hnd hpmem ({ page with deleted := true }) rfl _ ?_) hle
    intro hx
    rw [hdelrow sid] at hx
    cases hx

/-! ### Supporting lemmas: well-formedness preservation -/

theorem wf_of_map_id_eq (db db' : Db)
    (hmap : db'.pages.map Page.id = db.pages.map Page.id)
    (hnexteq : db'.nextId = db.nextId)
    (hnd : PageIdsNodup db) (hb : PageIdsBounded db) :
    PageIdsNodup db' ∧ PageIdsBounded db' := by
  constructor
  · unfold PageIdsNodup
    rw [hmap]
    exact hnd
  · intro p hp
    have hmem : p.id ∈ db.pages.map Page.id := by
      rw [← hmap]
      exact List.mem_map_of_mem _ hp
    obtain ⟨q, hq, hqid⟩ := List.mem_map.mp hmem
    rw [hnexteq, ← hqid]
    exact hb q hq

theorem applyPageOp_wf (db : Db) (op : PageOp) (db' : Db)
    (h : applyPageOp db op = .ok db') (hnd : PageIdsNodup db) (hb : PageIdsBounded db) :
    PageIdsNodup db' ∧ PageIdsBounded db' := by
  cases op with
  | create dto rand =>
    obtain ⟨site, np, hfind, hsid, hsites, hnext, hnpid, hnpsid, hnphp, hnpdel, hpages⟩ :=
      createPage_ok_spec db dto rand db' h
    have hmap : db'.pages.map Page.id = db.pages.map Page.id ++ [db.nextId] := by
      rw [hpages, List.map_append]
      congr 1
      · split
        · exact unsetOtherHomepages_map_id db.pages site.id none
        · rfl
      · simp [hnpid]
    constructor
    · unfold PageIdsNodup
      rw [hmap, List.nodup_append]
      refine ⟨hnd, List.nodup_singleton _, ?_⟩
      intro x hx hx2
      simp only [List.mem_singleton] at hx2
      subst hx2
      obtain ⟨q, hq, hqid⟩ := List.mem_map.mp hx
      have := hb q hq
      omega
    · intro p hp
      rw [hnext]
      have hpid_mem : p.id ∈ db'.pages.map Page.id := List.mem_map_of_mem _ hp
      rw [hmap] at hpid_mem
      rcases List.mem_append.mp hpid_mem with hin | hin
      · obtain ⟨q, hq, hqid⟩ := List.mem_map.mp hin
        have := hb q hq
        omega
      · simp only [List.mem_singleton] at hin
        omega
  | update pid dto rand =>
    obtain ⟨page, site, p', hfindp, hpid, hpdel, hfinds, hsid, hp'id, hp'site, hp'del,
      hp'slug, hp'hp, hsites, hnext, hpages⟩ := updatePage_ok_spec db pid dto rand db' h
    refine wf_of_map_id_eq db db' ?_ hnext hnd hb
    rw [hpages, savePage_map_id]
    split
    · exact unsetOtherHomepages_map_id db.pages site.id (some pid)
    · rfl
  | delete pid =>
    obtain ⟨page, site, hfindp, hpid, hpdel, hfinds, hsid, hcnt, hsites, hnext, hpages⟩ :=
      deletePage_ok_spec db pid db' h
    refine wf_of_map_id_eq db db' ?_ hnext hnd hb
    rw [hpages, savePage_map_id]
    split
    · split
      · exact savePage_map_id _ _
      · rfl
    · rfl

theorem applyPageOp_inv (db : Db) (op : PageOp) (db' : Db)
    (h : applyPageOp db op = .ok db') (hnd : PageIdsNodup db) (hb : PageIdsBounded db)
    (hinv : HomepageAtMostOne db) :
    PageIdsNodup db' ∧ PageIdsBounded db' ∧ HomepageAtMostOne db' := by
  obtain ⟨h1, h2⟩ := applyPageOp_wf db op db' h hnd hb
  refine ⟨h1, h2, ?_⟩
  cases op with
  | create dto rand =>
    intro sid
    obtain ⟨hother, htrue, hfalse⟩ := homepageCount_createPage db dto rand db' h
    by_cases hs : sid = dto.siteId
    · subst hs
      by_cases hhp : dto.isHomepage.getD false = true
      · rw [htrue hhp]
      · rw [hfalse (by revert hhp; cases dto.isHomepage.getD false <;> simp)]
        exact hinv _
    · rw [hother sid hs]
      exact hinv sid
  | update pid dto rand =>
    intro sid
    exact (homepageCount_updatePage db pid dto rand db' h hnd).1 sid (hinv sid)
  | delete pid =>
    intro sid
    exact homepageCount_deletePage db pid db' h hnd sid (hinv sid)

theorem runPageOps_inv (db : Db) (ops : List PageOp)
    (hnd : PageIdsNodup db) (hb : PageIdsBounded db) (hinv : HomepageAtMostOne db) :
    PageIdsNodup (runPageOps db ops) ∧ PageIdsBounded (runPageOps db ops) ∧
      HomepageAtMostOne (runPageOps db ops) := by
  induction ops generalizing db with
  | nil => exact ⟨hnd, hb, hinv⟩
  | cons op ops ih =>
    unfold runPageOps
    cases hres : applyPageOp db op with
    | ok db' =>
      obtain ⟨h1, h2, h3⟩ := applyPageOp_inv db op db' hres hnd hb hinv
      exact ih db' h1 h2 h3
    | error e => exact ih db hnd hb hinv

/-! ## Theorems for the credit ledger -/

/-- **C2.** `useCredits(n)` never pushes `usedCredits` past `credits`: a
successful call always ends with `usedCredits ≤ credits`, and from any state
already satisfying `usedCredits ≤ credits` the call preserves it.  When
`credits - usedCredits < n` the call returns `false` with the row unchanged;
when `credits - usedCredits ≥ n` it returns `true` and increments
`usedCredits` by exactly `n`, leaving `credits` untouched. -/
theorem useCredits_safe_and_exact (c : AICredits) (n : Int) :
    ((useCredits c n).1 = true →
      (useCredits c n).2.usedCredits ≤ (useCredits c n).2.credits) ∧
    (c.usedCredits ≤ c.credits →
      (useCredits c n).2.usedCredits ≤ (useCredits c n).2.credits) ∧
    (c.credits - c.usedCredits < n → useCredits c n = (false, c)) ∧
    (n ≤ c.credits - c.usedCredits →
      (useCredits c n).1 = true ∧
      (useCredits c n).2.usedCredits = c.usedCredits + n ∧
      (useCredits c n).2.credits = c.credits) := by
  by_cases h : c.credits - c.usedCredits ≥ n
  · have hb : hasEnoughCredits c n = true := decide_eq_true h
    unfold useCredits
    rw [hb]
    simp only [Bool.not_true]
    rw [if_neg Bool.false_ne_true]
    refine ⟨fun _ => ?_, fun hle => ?_, fun hlt => absurd h (by omega),
      fun _ => ⟨rfl, rfl, rfl⟩⟩
    · show c.usedCredits + n ≤ c.credits
      omega
    · show c.usedCredits + n ≤ c.credits
      omega
  · have hb : hasEnoughCredits c n = false := decide_eq_false h
    unfold useCredits
    rw [hb]
    simp only [Bool.not_false]
    rw [if_pos trivial]
    exact ⟨fun ht => absurd ht Bool.false_ne_true, fun hle => hle, fun _ => rfl,
      fun hn => absurd hn (by omega)⟩

/-- Witness for `useCredits_safe_and_exact` at the concrete ledger
`{credits := 10, usedCredits := 3}` and amount `5`. -/
theorem useCredits_safe_and_exact_witness :
    (useCredits ⟨10, 3⟩ 5).1 = true ∧
    (useCredits ⟨10, 3⟩ 5).2.usedCredits = 8 ∧
    (useCredits ⟨10, 3⟩ 5).2.credits = 10 := by
  have h := (useCredits_safe_and_exact ⟨10, 3⟩ 5).2.2.2 (by norm_num)
  exact ⟨h.1, h.2.1, h.2.2⟩

/-! ## Theorems for payments -/

/-- **C9.** `processRefund` errors exactly when the payment is not
`completed` or the amount lies outside `(0, amount]` (the payment is then
unchanged, the embedding returning no new state on the error branch); on a
valid partial refund the status stays `completed` with `refundAmount`
recorded, and on a full refund the status becomes `refunded`. -/
theorem processRefund_cases (p : Payment) (amount : Rat) (reason : Option String)
    (metadata : PaymentMetadata) (now : Nat) :
    ((processRefund p amount reason metadata now).isOk = false ↔
      (p.status ≠ .completed ∨ amount ≤ 0 ∨ amount > p.amount)) ∧
    (p.status = .completed → 0 < amount → amount < p.amount →
      ∃ q, processRefund p amount reason metadata now = .ok q ∧
        q.status = .completed ∧ q.refundAmount = some amount) ∧
    (p.status = .completed → 0 < amount → amount = p.amount →
      ∃ q, processRefund p amount reason metadata now = .ok q ∧
        q.status = .refunded ∧ q.refundAmount = some amount) := by
  unfold processRefund
  refine ⟨?_, ?_, ?_⟩
  · by_cases h1 : p.status = .completed
    · simp only [h1, ne_eq, not_true_eq_false, if_false]
      by_cases h2 : amount ≤ 0 ∨ amount > p.amount
      · simp [h2, Except.isOk, Except.toBool]
      · simp [h2, Except.isOk, Except.toBool, h1]
    · simp [h1, Except.isOk, Except.toBool]
  · intro h1 h2 h3
    refine ⟨_, by rw [if_neg (by simp [h1]), if_neg (by push_neg; constructor <;> [linarith; linarith])], ?_, rfl⟩
    simp only []
    rw [if_neg (by exact fun h => absurd h (by linarith))]
  · intro h1 h2 h3
    refine ⟨_, by rw [if_neg (by simp [h1]), if_neg (by push_neg; constructor <;> [linarith; linarith])], ?_, rfl⟩
    simp only []
    rw [if_pos h3]

/-- Witness for `processRefund_cases`: a completed 100.00 payment partial- and
full-refunded at concrete amounts. -/
theorem processRefund_cases_witness :
    (∃ q, processRefund ⟨100, .completed, [], none, none, none⟩ 40 none [] 7 = .ok q ∧
      q.status = .completed ∧ q.refundAmount = some 40) ∧
    (∃ q, processRefund ⟨100, .completed, [], none, none, none⟩ 100 none [] 7 = .ok q ∧
      q.status = .refunded ∧ q.refundAmount = some 100) := by
  constructor
  · exact (processRefund_cases ⟨100, .completed, [], none, none, none⟩ 40 none [] 7).2.1
      rfl (by norm_num) (by norm_num)
  · exact (processRefund_cases ⟨100, .completed, [], none, none, none⟩ 100 none [] 7).2.2
      rfl (by norm_num) rfl

/-- **C10.** `markAsPaid` is unconditional: from every starting status —
including `failed`, `refunded` and `cancelled` — it sets `status` to
`completed`, `paidAt` to the current instant, and shallow-merges the supplied
metadata over the existing record. -/
theorem markAsPaid_unconditional (p : Payment) (m : PaymentMetadata) (now : Nat) :
    (markAsPaid p m now).status = .completed ∧
    (markAsPaid p m now).paidAt = some now ∧
    (markAsPaid p m now).metadata = metaSpread p.metadata m ∧
    (markAsPaid p m now).amount = p.amount := by
  exact ⟨rfl, rfl, rfl, rfl⟩

/-! ## Theorems for slug generation -/

/-- **C5, counterexample.** The claim says `generateSlug` strips every
character outside `[a-z0-9-]`, but `\w` keeps the underscore: on input
`"a_b"` the output is `"a_b"`, which contains `'_'`, a character outside the
claimed class. -/
theorem generateSlug_underscore_counterexample :
    generateSlug "a_b" = "a_b" ∧
    '_' ∈ (generateSlug "a_b").data ∧
    isClaimedSlugChar '_' = false := by
  refine ⟨by decide, by decide, by decide⟩

/-- **C5, amended.** `generateSlug` is a deterministic function that
lowercases ASCII letters, collapses whitespace runs to single hyphens,
strips all characters outside `[A-Za-z0-9_-]` (so the underscore is *kept*,
`\w` including it), collapses repeated hyphens and trims leading/trailing
hyphens; consequently every character of its output lies in `[a-z0-9_-]`. -/
theorem generateSlug_output_charset (s : String) (c : Char)
    (h : c ∈ (generateSlug s).data) : isSlugOutputChar c = true := by
  unfold generateSlug at h
  have h1 : c ∈ trimTrailHyphens (trimLeadHyphens (collapseHyphensAux false
      (stripNonWord (collapseWsAux false (s.data.map asciiToLower))))) := h
  have h2 := mem_trimLeadHyphens _ _ (mem_trimTrailHyphens _ _ h1)
  rcases mem_collapseHyphensAux _ _ _ h2 with hc | h3
  · subst hc
    decide
  · have h4 : c ∈ stripNonWord (collapseWsAux false (s.data.map asciiToLower)) := h3
    unfold stripNonWord at h4
    have h5 := List.mem_filter.mp h4
    have hword : (isJsWordChar c || c = '-') = true := h5.2
    rcases mem_collapseWsAux _ _ _ h5.1 with hc | h6
    · subst hc
      decide
    · rcases List.mem_map.mp h6 with ⟨c0, _, hc0⟩
      have hnu := asciiToLower_not_upper c0
      rw [hc0] at hnu
      unfold isSlugOutputChar
      unfold isJsWordChar at hword
      rcases Bool.or_eq_true _ _ |>.mp hword with hw | hh
      · rw [decide_eq_true_eq] at hw
        apply decide_eq_true
        rcases hw with h65 | hrest
        · exact absurd h65 hnu
        · rcases hrest with ha | hb
          · exact Or.inl ha
          · rcases hb with hd | he
            · exact Or.inr (Or.inl hd)
            · exact Or.inr (Or.inr (Or.inl he))
      · rw [decide_eq_true_eq] at hh
        apply decide_eq_true
        exact Or.inr (Or.inr (Or.inr hh))

/-- Witness for `generateSlug_output_charset` at input `"a_b"` and its member
character `'_'`. -/
theorem generateSlug_output_charset_witness :
    isSlugOutputChar '_' = true :=
  generateSlug_output_charset "a_b" '_' (by decide)

/-! ## Theorems for the homepage invariant (page lifecycle) -/

/-- **C1, counterexample.** The claim demands exactly one homepage whenever
a site has at least one non-deleted page.  Creating the first page of a site
with `isHomepage` not set yields a site with one page and zero homepages:
nothing in `createPage` promotes the page. -/
theorem createPage_zero_homepages_counterexample :
    (createPage emptySiteDb aboutDto []).toOption.map
      (fun d => (homepageCount d 1, sitePageCount d 1)) = some (0, 1) := by
  decide

/-- **C1, amended.** Starting from a database with unique, generator-issued
page ids in which every site has *at most* one non-deleted homepage, any
sequence of page create/update/delete requests preserves that bound (an
"exactly one when non-empty" version is refuted by
`createPage_zero_homepages_counterexample`); and setting a homepage unsets
the previous one in the same step: a successful `createPage` with
`isHomepage = true`, or `updatePage` setting `isHomepage` to `true`, leaves
its site with exactly one non-deleted homepage. -/
theorem homepage_at_most_one_invariant (db : Db) (ops : List PageOp)
    (hnd : PageIdsNodup db) (hb : PageIdsBounded db) (hinv : HomepageAtMostOne db) :
    HomepageAtMostOne (runPageOps db ops) ∧
    (∀ dto rand db', createPage db dto rand = .ok db' → dto.isHomepage = some true →
      homepageCount db' dto.siteId = 1) ∧
    (∀ pid dto rand db' page, updatePage db pid dto rand = .ok db' →
      dto.isHomepage = some true → findPage db pid = some page →
      homepageCount db' page.siteId = 1) := by
  refine ⟨(runPageOps_inv db ops hnd hb hinv).2.2, ?_, ?_⟩
  · intro dto rand db' h hhp
    apply (homepageCount_createPage db dto rand db' h).2.1
    rw [hhp]
    rfl
  · intro pid dto rand db' page h hhp hfind
    exact (homepageCount_updatePage db pid dto rand db' h hnd).2 hhp page hfind

/-- Witness for `homepage_at_most_one_invariant`: an empty site run through
a create/create/update/delete sequence. -/
theorem homepage_at_most_one_invariant_witness :
    HomepageAtMostOne (runPageOps emptySiteDb
      [.create ⟨1, "New", none, none, none, some true, none⟩ [],
       .create aboutDto [],
       .update 10 ⟨none, none, none, none, none, some true, none⟩ [],
       .delete 11]) :=
  (homepage_at_most_one_invariant emptySiteDb _
    (by unfold PageIdsNodup; decide)
    (by unfold PageIdsBounded; decide)
    (by
      intro sid
      unfold homepageCount emptySiteDb
      simp)).1

/-! ## Theorems for reordering (C3) -/

/-- **C3, counterexample.** `reorderPages` accepts an id list that is *not*
set-equal to the scope's membership: on the three-page site, the list
`[2, 1]` — which omits page 3, a live member of the same scope — is
accepted, pages 2 and 1 receive orders 0 and 1, and page 3 keeps its old
order. -/
theorem reorderPages_subset_accepted_counterexample :
    reorderPages threePagesDb [2, 1] = .ok threePagesReordered ∧
    threePagesDb.pages.any (fun p => !p.deleted && p.siteId == 1 && p.id == 3) = true ∧
    3 ∉ [2, 1] :=
  ⟨rfl, by decide, by decide⟩

/-- **C3, amended.** An accepted reorder request (pages or sections) has a
non-empty id list whose every id names an existing non-deleted accessible
entity — no set-equality check against the scope's full membership is
performed; each listed entity's `order` becomes its index in the list
(dense `0..N-1` over the *listed* entities), entities not listed keep their
rows unchanged, and a rejected request changes nothing (the operation
returns an error before any write). -/
theorem reorder_assigns_listed_indices (db : Db) :
    (∀ ids db', reorderPages db ids = .ok db' →
      ids ≠ [] ∧
      (∀ p' ∈ db'.pages, ∀ i, List.indexOf? p'.id ids = some i → p'.order = (i : Int)) ∧
      (∀ p ∈ db.pages, p.id ∉ ids → p ∈ db'.pages)) ∧
    (∀ ids db', reorderSections db ids = .ok db' →
      ids ≠ [] ∧
      (∀ s' ∈ db'.sections, ∀ i, List.indexOf? s'.id ids = some i → s'.order = (i : Int)) ∧
      (∀ s ∈ db.sections, s.id ∉ ids → s ∈ db'.sections)) := by
  constructor
  · intro ids db' h
    unfold reorderPages at h
    split at h
    · cases h
    · rename_i hne
      dsimp only at h
      split at h
      · cases h
      · split at h
        · cases h
        · have hx := Except.ok.inj h
          subst hx
          refine ⟨?_, ?_, ?_⟩
          · intro hnil
            rw [hnil] at hne
            exact hne rfl
          · intro p' hp' i hidx
            obtain ⟨q, hq, hqe⟩ := List.mem_map.mp hp'
            cases hqidx : List.indexOf? q.id ids with
            | none =>
              rw [hqidx] at hqe
              have hred : (match (none : Option Nat) with
                  | some i => { q with order := (i : Int) }
                  | none => q) = q := rfl
              rw [hred] at hqe
              rw [← hqe] at hidx
              rw [hidx] at hqidx
              cases hqidx
            | some j =>
              rw [hqidx] at hqe
              have hred : (match (some j : Option Nat) with
                  | some i => { q with order := (i : Int) }
                  | none => q) = { q with order := (j : Int) } := rfl
              rw [hred] at hqe
              have hqid : p'.id = q.id := by rw [← hqe]
              rw [hqid, hqidx] at hidx
              have hij : j = i := Option.some.inj hidx
              rw [← hqe, ← hij]
          · intro p hp hnotin
            have hidx : List.indexOf? p.id ids = none := by
              apply List.indexOf?_eq_none_iff.mpr
              intro x hx hbeq
              exact hnotin (by rwa [show x = p.id by simpa using hbeq] at hx)
            refine List.mem_map.mpr ⟨p, hp, ?_⟩
            rw [hidx]
  · intro ids db' h
    unfold reorderSections at h
    split at h
    · cases h
    · rename_i hne
      dsimp only at h
      split at h
      · cases h
      · split at h
        · cases h
        · have hx := Except.ok.inj h
          subst hx
          refine ⟨?_, ?_, ?_⟩
          · intro hnil
            rw [hnil] at hne
            exact hne rfl
          · intro s' hs' i hidx
            obtain ⟨q, hq, hqe⟩ := List.mem_map.mp hs'
            cases hqidx : List.indexOf? q.id ids with
            | none =>
              rw [hqidx] at hqe
              have hred : (match (none : Option Nat) with
                  | some i => { q with order := (i : Int) }
                  | none => q) = q := rfl
              rw [hred] at hqe
              rw [← hqe] at hidx
              rw [hidx] at hqidx
              cases hqidx
            | some j =>
              rw [hqidx] at hqe
              have hred : (match (some j : Option Nat) with
                  | some i => { q with order := (i : Int) }
                  | none => q) = { q with order := (j : Int) } := rfl
              rw [hred] at hqe
              have hqid : s'.id = q.id := by rw [← hqe]
              rw [hqid, hqidx] at hidx
              have hij : j = i := Option.some.inj hidx
              rw [← hqe, ← hij]
          · intro s hs hnotin
            have hidx : List.indexOf? s.id ids = none := by
              apply List.indexOf?_eq_none_iff.mpr
              intro x hx hbeq
              exact hnotin (by rwa [show x = s.id by simpa using hbeq] at hx)
            refine List.mem_map.mpr ⟨s, hs, ?_⟩
            rw [hidx]

/-- Witness for `reorder_assigns_listed_indices` at the accepted subset
request of the counterexample. -/
theorem reorder_assigns_listed_indices_witness :
    ([2, 1] : List Nat) ≠ [] :=
  ((reorder_assigns_listed_indices threePagesDb).1 [2, 1] threePagesReordered rfl).1

/-! ## Theorems for slug regeneration on update (C4) -/

/-- **C4 (code bug).** Both `updatePage` and `updateSite` assign the DTO
value to the stored field *before* comparing the two
(`page.title = dto.title; if (dto.title !== page.title) ...`), so the
comparison is always false and the slug is never regenerated: updating the
page titled `"Old Title"` (slug `old-title`) to `"New Title"` keeps slug
`old-title` even though `generateSlug` would produce `new-title`, and
likewise for the site name.  The code contradicts its own comment
("Update slug if title changes") and the spec. -/
theorem update_never_regenerates_slug :
    ((updatePage singlePageDb 2
        ⟨some "New Title", none, none, none, none, none, none⟩ []).toOption.bind
      (fun d => d.pages.find? (fun p => p.id == 2))).map (fun p => (p.title, p.slug)) =
        some ("New Title", "old-title") ∧
    generateSlug "New Title" = "new-title" ∧
    ((updateSite singlePageDb 1 ⟨some "New Name", none, none, none⟩ []).toOption.bind
      (fun d => d.sites.find? (fun s => s.id == 1))).map (fun s => (s.name, s.slug)) =
        some ("New Name", "acme") ∧
    generateSlug "New Name" = "new-name" := by
  decide

/-! ## Theorems for minimum-one-child deletion (C7) -/

/-- **C7.** Deleting the sole remaining page of a site, or the sole
remaining section of a page, is rejected with the `BadRequestError` of the
source; the operation throws before any write, so on the error branch the
embedding returns no new state and the parent keeps its one child. -/
theorem delete_sole_child_rejected :
    (∀ db pid page site, findPage db pid = some page →
      findSite db page.siteId = some site →
      sitePageCount db site.id = 1 →
      deletePage db pid = .error (.badRequest "Cannot delete the last page of a site")) ∧
    (∀ db sid sec page site,
      db.sections.find? (fun s => !s.deleted && s.id == sid) = some sec →
      db.pages.find? (fun p => p.id == sec.pageId) = some page →
      findSite db page.siteId = some site →
      pageSectionCount db sec.pageId = 1 →
      deleteSection db sid = .error (.badRequest "Cannot delete the last section of a page")) := by
  constructor
  · intro db pid page site hfp hfs hcnt
    simp only [deletePage, hfp, hfs]
    rw [if_pos (by omega : sitePageCount db site.id ≤ 1)]
  · intro db sid sec page site hf1 hf2 hf3 hcnt
    simp only [deleteSection, hf1, hf2, hf3]
    rw [if_pos (by omega : pageSectionCount db sec.pageId ≤ 1)]

/-- Witness for `delete_sole_child_rejected` on the single-page,
single-section database. -/
theorem delete_sole_child_rejected_witness :
    deletePage singlePageDb 2 =
      .error (.badRequest "Cannot delete the last page of a site") ∧
    deleteSection singlePageDb 3 =
      .error (.badRequest "Cannot delete the last section of a page") := by
  constructor
  · exact delete_sole_child_rejected.1 singlePageDb 2
      ⟨2, 1, "Old Title", "old-title", "", "", "draft", "page", true, 0, false⟩
      demoSite (by decide) (by decide) (by decide)
  · exact delete_sole_child_rejected.2 singlePageDb 3
      ⟨3, 2, 0, false⟩
      ⟨2, 1, "Old Title", "old-title", "", "", "draft", "page", true, 0, false⟩
      demoSite (by decide) (by decide) (by decide) (by decide)

/-! ## Theorems for homepage hand-over on delete (C8) -/

/-- **C8, counterexample.** Deleting the homepage of the three-page site
promotes page 2 — the first other page in table order, with `order = 5` —
and not page 3, whose `order = 1` is the lowest: `deletePage` runs
`findOne` with no ordering clause, so "lowest order" is not what the code
picks. -/
theorem deletePage_homepage_pick_counterexample :
    ((deletePage threePagesDb 1).toOption.bind
        (fun d => d.pages.find? (fun p => p.id == 2))).map
      (fun p => (p.isHomepage, p.order)) = some (true, 5) ∧
    ((deletePage threePagesDb 1).toOption.bind
        (fun d => d.pages.find? (fun p => p.id == 3))).map
      (fun p => (p.isHomepage, p.order)) = some (false, 1) ∧
    (1 : Int) < 5 := by
  decide

/-- **C8, amended.** When an accepted `deletePage` removes the site's
homepage and some other non-deleted page of the site exists, the *first*
such page in table order (the unordered `findOne` result) — not necessarily
the one with the lowest `order` — is designated the new homepage before the
soft-deletion completes. -/
theorem deletePage_homepage_first_other (db : Db) (pid : Nat) (page : Page)
    (site : Site) (a : Page) (db' : Db)
    (hfindp : findPage db pid = some page) (hhp : page.isHomepage = true)
    (hfinds : findSite db page.siteId = some site)
    (hfa : db.pages.find? (fun q => !q.deleted && q.siteId == site.id && q.id != pid) =
      some a)
    (h : deletePage db pid = .ok db') :
    a.deleted = false ∧ a.siteId = site.id ∧ a.id ≠ pid ∧
    (∀ q ∈ db'.pages, q.id = a.id → q.isHomepage = true) ∧
    (∀ q ∈ db'.pages, q.id = pid → q.deleted = true) := by
  obtain ⟨page0, site0, hfindp0, hpid, hpdel, hfinds0, hsid, hcnt, hsites, hnext, hpages⟩ :=
    deletePage_ok_spec db pid db' h
  rw [hfindp] at hfindp0
  have hpp : page = page0 := Option.some.inj hfindp0
  subst hpp
  rw [hfinds] at hfinds0
  have hss : site = site0 := Option.some.inj hfinds0
  subst hss
  have hafacts := List.find?_some hfa
  simp only [Bool.and_eq_true] at hafacts
  have hadel : a.deleted = false := by simpa using hafacts.1.1
  have hasite : a.siteId = site.id := by simpa using hafacts.1.2
  have haid : a.id ≠ pid := by simpa using hafacts.2
  have hamem : a ∈ db.pages := List.mem_of_find?_eq_some hfa
  have hpmem : page ∈ db.pages := by
    unfold findPage at hfindp
    exact List.mem_of_find?_eq_some hfindp
  rw [if_pos hhp, hfa] at hpages
  have hred : (match (some a : Option Page) with
      | some another => savePage db.pages { another with isHomepage := true }
      | none => db.pages) = savePage db.pages { a with isHomepage := true } := rfl
  rw [hred] at hpages
  have hAB : ({ a with isHomepage := true } : Page).id ≠
      ({ page with deleted := true } : Page).id := by
    simpa [hpid] using haid
  have hcomp : db'.pages = db.pages.map
      (saveTwoTransform { a with isHomepage := true } { page with deleted := true }) := by
    rw [hpages]
    unfold savePage saveTwoTransform
    rw [List.map_map]
    rfl
  refine ⟨hadel, hasite, haid, ?_, ?_⟩
  · intro q hq hqid
    rw [hcomp] at hq
    obtain ⟨q0, hq0, hq0e⟩ := List.mem_map.mp hq
    by_cases h1 : q0.id = a.id
    · rw [(saveTwoTransform_cases _ _ q0 hAB).1 h1] at hq0e
      rw [← hq0e]
    · by_cases h2 : q0.id = page.id
      · rw [(saveTwoTransform_cases _ _ q0 hAB).2.1 h2] at hq0e
        exfalso
        apply haid
        have hqidpage : q.id = page.id := by rw [← hq0e]
        rw [← hqid, hqidpage, hpid]
      · rw [(saveTwoTransform_cases _ _ q0 hAB).2.2 h1 h2] at hq0e
        rw [← hq0e] at hqid
        exact absurd hqid h1
  · intro q hq hqid
    rw [hcomp] at hq
    obtain ⟨q0, hq0, hq0e⟩ := List.mem_map.mp hq
    by_cases h1 : q0.id = a.id
    · rw [(saveTwoTransform_cases _ _ q0 hAB).1 h1] at hq0e
      exfalso
      apply haid
      have : q.id = a.id := by rw [← hq0e]
      rw [← this, hqid]
    · by_cases h2 : q0.id = page.id
      · rw [(saveTwoTransform_cases _ _ q0 hAB).2.1 h2] at hq0e
        rw [← hq0e]
      · rw [(saveTwoTransform_cases _ _ q0 hAB).2.2 h1 h2] at hq0e
        exfalso
        rw [← hq0e] at hqid
        apply h2
        rw [hqid, hpid]

/-- Witness for `deletePage_homepage_first_other` on the three-page site:
after the delete, the row with id 2 is the homepage and the row with id 1
is soft-deleted. -/
theorem deletePage_homepage_first_other_witness :
    (⟨2, 1, "B", "b", "", "", "draft", "page", true, 5, false⟩ : Page).isHomepage = true ∧
    (⟨1, 1, "Home", "home", "", "", "draft", "home", true, 0, true⟩ : Page).deleted = true := by
  have h := deletePage_homepage_first_other threePagesDb 1
    ⟨1, 1, "Home", "home", "", "", "draft", "home", true, 0, false⟩
    demoSite
    ⟨2, 1, "B", "b", "", "", "draft", "page", false, 5, false⟩
    threePagesAfterDelete
    (by decide) (by decide) (by decide) (by decide) rfl
  exact ⟨h.2.2.2.1 _ (by decide) rfl, h.2.2.2.2 _ (by decide) rfl⟩

/-! ## Theorems for slug-collision suffixes (C6) -/

theorem randSuffix_length_le (digits : List Char) (a b : Nat) :
    (randSuffix digits a b).length ≤ b - a := by
  unfold randSuffix jsSubstring
  show (((randToString36 digits).take b).drop a).length ≤ b - a
  rw [List.length_drop, List.length_take]
  omega

/-- A `substring(2, _)` of `Math.random().toString(36)` consists of digits
of the fractional expansion: indices `0` and `1` hold `"0."`. -/
theorem randSuffix_two_chars (digits : List Char) (b : Nat) (c : Char)
    (hc : c ∈ (randSuffix digits 2 b).data) : c ∈ digits := by
  unfold randSuffix jsSubstring randToString36 at hc
  by_cases hd : digits.isEmpty = true
  · rw [if_pos hd] at hc
    have hlen : (List.take b ['0']).length ≤ 1 := by
      rw [List.length_take]
      simp only [List.length_singleton]
      omega
    rw [List.drop_eq_nil_of_le (by omega)] at hc
    cases hc
  · rw [if_neg hd] at hc
    match b with
    | 0 =>
      rw [List.take_zero] at hc
      cases hc
    | 1 =>
      rw [List.take_succ_cons, List.take_zero] at hc
      cases hc
    | Nat.succ (Nat.succ b) =>
      rw [List.take_succ_cons, List.take_succ_cons] at hc
      have hred : List.drop 2 ('0' :: '.' :: List.take b digits) = List.take b digits := rfl
      rw [hred] at hc
      exact List.take_subset _ _ hc

/-- **C6, counterexample.** Site slugs append
`Math.random().toString(36).substring(2, 8)` — up to *six* characters, not
four: with a six-digit (or longer) random expansion, the second site named
"My Site" gets slug `my-site-abcdef`, which does not match the claimed
pattern `my-site-XXXX` of exactly four suffix characters. -/
theorem createSite_suffix_not_four_counterexample :
    (createSite emptyDb mySiteDto ['a', 'b', 'c', 'd', 'e', 'f', 'g']).toOption.map
      (fun d => d.sites.map Site.slug) = some ["my-site"] ∧
    (createSite firstMySiteDb mySiteDto ['a', 'b', 'c', 'd', 'e', 'f', 'g']).toOption.map
      (fun d => d.sites.map Site.slug) = some ["my-site", "my-site-abcdef"] ∧
    ("my-site-abcdef" : String).length ≠ ("my-site-" : String).length + 4 := by
  decide

/-- **C6, amended.** When a freshly generated slug is already taken in its
scope, a random alphanumeric suffix is appended after a hyphen — up to six
characters for sites (`substring(2, 8)`) and up to four for pages
(`substring(2, 6)`), the exact length depending on the random draw's
base-36 expansion.  Creating two sites named "My Site" yields distinct
slugs: the first is `my-site`, the second `my-site-` followed by at most
six base-36 characters. -/
theorem createSite_collision_appends_suffix (r1 r2 : List Char)
    (hc : ∀ c ∈ r2, isBase36Digit c = true) :
    createSite emptyDb mySiteDto r1 = .ok firstMySiteDb ∧
    ∃ db2, createSite firstMySiteDb mySiteDto r2 = .ok db2 ∧
      db2.sites.map Site.slug = ["my-site", "my-site-" ++ randSuffix r2 2 8] ∧
      (randSuffix r2 2 8).length ≤ 6 ∧
      (∀ c ∈ (randSuffix r2 2 8).data, isBase36Digit c = true) ∧
      "my-site-" ++ randSuffix r2 2 8 ≠ "my-site" := by
  refine ⟨rfl, _, rfl, rfl, ?_, ?_, ?_⟩
  · exact randSuffix_length_le r2 2 8
  · intro c hcc
    exact hc c (randSuffix_two_chars r2 8 c hcc)
  · intro heq
    have hlen := congrArg String.length heq
    rw [String.length_append] at hlen
    have h8 : ("my-site-" : String).length = 8 := rfl
    have h7 : ("my-site" : String).length = 7 := rfl
    omega

/-- Witness for `createSite_collision_appends_suffix` with a one-digit
expansion on the second draw. -/
theorem createSite_collision_appends_suffix_witness :
    createSite emptyDb mySiteDto [] = .ok firstMySiteDb :=
  (createSite_collision_appends_suffix [] ['i'] (by decide)).1
